import Mathlib

/-!
# HttpRequest facade (`lib/libimhex/include/hex/helpers/http_requests.hpp`)

A shallow embedding of the inline parts of `hex::HttpRequest`:

* the `ResultBase` / `Result<T>` wrapper with its two constructors and three getters,
* the request's configuration members and the inline operations that mutate them
  (`setMethod`, `setUrl`, `addHeader`, `setBody`, `setTimeout`, `setProgress`, `cancel`),
* the `std::map<std::string, std::string>` behind `addHeader`,
* the percent codec `urlEncode` / `urlDecode`, which the header only declares.

Conventions: `u32` is `Fin 2^32`; a `std::string` is its list of bytes; a `float` is carried
by the value it denotes (the header only stores and loads it, it does no float arithmetic).
-/

namespace hex

/-! ## Scalar types -/

/-- The C++ type `u32`: an unsigned 32-bit integer. -/
abbrev u32 : Type := Fin 4294967296

/-- One `char` of a `std::string`, read as an unsigned byte. -/
abbrev Byte : Type := Fin 256

/-- A `std::string`: a finite sequence of bytes. -/
abbrev CppString : Type := List Byte

/-- The bytes of an ASCII literal (every character of the literal is below 128). -/
def ascii (s : String) : CppString :=
  s.toList.map (fun c => Fin.ofNat c.toNat)

/-- A C++ `float`, by the value it denotes: a number, an infinity, or a NaN.
The numbers of the model are the rationals, which contain every finite binary32 value. -/
inductive f32 where
  | num (q : ℚ)
  | inf (negative : Bool)
  | nan
  deriving DecidableEq

/-- The literal `0.0F`. -/
def f32.zero : f32 := f32.num 0

/-- The float denotes a number of the closed interval `[0, 1]`. -/
def f32.inUnit : f32 → Prop
  | f32.num q => 0 ≤ q ∧ q ≤ 1
  | f32.inf _ => False
  | f32.nan => False

instance f32.decidableInUnit (x : f32) : Decidable x.inUnit :=
  match x with
  | f32.num q => inferInstanceAs (Decidable (0 ≤ q ∧ q ≤ 1))
  | f32.inf _ => isFalse (fun h => h)
  | f32.nan => isFalse (fun h => h)

/-! ## `HttpRequest::ResultBase` and `HttpRequest::Result<T>` -/

/-- The class `ResultBase`: `m_statusCode` and `m_valid`. -/
structure ResultBase where
  m_statusCode : u32
  m_valid : Bool
  deriving DecidableEq

namespace ResultBase

/-- `ResultBase() = default;` with the default member initialisers
`m_statusCode = 0` and `m_valid = false`. -/
def default : ResultBase := { m_statusCode := 0, m_valid := false }

/-- `explicit ResultBase(u32 statusCode) : m_statusCode(statusCode), m_valid(true) { }`. -/
def ofStatus (statusCode : u32) : ResultBase :=
  { m_statusCode := statusCode, m_valid := true }

/-- `getStatusCode()`: returns `m_statusCode`. -/
def getStatusCode (r : ResultBase) : u32 := r.m_statusCode

/-- `isSuccess()`: `this->getStatusCode() == 200`. -/
def isSuccess (r : ResultBase) : Bool := r.getStatusCode == 200

/-- `isValid()`: returns `m_valid`. -/
def isValid (r : ResultBase) : Bool := r.m_valid

end ResultBase

/-- The class template `Result<T> : public ResultBase` with its member `m_data`. -/
structure Result (T : Type) extends ResultBase where
  m_data : T

namespace Result

/-- `Result() = default;`: the base is default-constructed and `m_data` is a
default-constructed `T`. -/
def default (T : Type) [Inhabited T] : Result T :=
  { toResultBase := ResultBase.default, m_data := Inhabited.default }

/-- `Result(u32 statusCode, T data) : ResultBase(statusCode), m_data(std::move(data)) { }`. -/
def make {T : Type} (statusCode : u32) (data : T) : Result T :=
  { toResultBase := ResultBase.ofStatus statusCode, m_data := data }

/-- `getData()`: returns `m_data`. -/
def getData {T : Type} (r : Result T) : T := r.m_data

/-- `getStatusCode()`, inherited from `ResultBase`. -/
def getStatusCode {T : Type} (r : Result T) : u32 := r.toResultBase.getStatusCode

/-- `isSuccess()`, inherited from `ResultBase`. -/
def isSuccess {T : Type} (r : Result T) : Bool := r.toResultBase.isSuccess

/-- `isValid()`, inherited from `ResultBase`. -/
def isValid {T : Type} (r : Result T) : Bool := r.toResultBase.isValid

/-- The results the class lets a caller build: `Result()` and `Result(statusCode, data)`. -/
inductive Constructed {T : Type} [Inhabited T] : Result T → Prop where
  | byDefault : Constructed (Result.default T)
  | byMake (statusCode : u32) (data : T) : Constructed (Result.make statusCode data)

end Result

/-! ## `std::map<Key, T>`

A map is the list of its entries, which `std::map` keeps in strictly increasing key
order (hence with unique keys); `KeysAscending` is that class invariant. -/

/-- A `std::map<K, V>`, as the list of its entries in iteration order. -/
abbrev StdMap (K V : Type) : Type := List (K × V)

namespace StdMap

/-- The class invariant of `std::map`: the keys of the entries are strictly increasing. -/
def KeysAscending {K V : Type} [LinearOrder K] (m : StdMap K V) : Prop :=
  List.Pairwise (fun a b => a.1 < b.1) m

/-- The mapped value of a key, if the key is present (`std::map::find`). -/
def find {K V : Type} [LinearOrder K] : StdMap K V → K → Option V
  | [], _ => none
  | (k', v') :: rest, k => if k' = k then some v' else find rest k

/-- The number of entries (`std::map::size`). -/
def size {K V : Type} (m : StdMap K V) : Nat := List.length m

/-- The lookup half of `operator[]`: when the key is absent, an entry with a
value-initialised mapped value is inserted at the key's place in the order; when it is
present nothing changes. -/
def subscript {K V : Type} [LinearOrder K] [Inhabited V] : StdMap K V → K → StdMap K V
  | [], k => [(k, Inhabited.default)]
  | (k', v') :: rest, k =>
    if k < k' then (k, Inhabited.default) :: (k', v') :: rest
    else if k' < k then (k', v') :: subscript rest k
    else (k', v') :: rest

/-- Assignment through the reference that `operator[]` returns: the mapped value of the
entry with key `k` is overwritten. -/
def assign {K V : Type} [LinearOrder K] : StdMap K V → K → V → StdMap K V
  | [], _, _ => []
  | (k', v') :: rest, k, v =>
    if k' = k then (k', v) :: rest else (k', v') :: assign rest k v

/-- The statement `m[key] = value;`. -/
def subscriptAssign {K V : Type} [LinearOrder K] [Inhabited V] (m : StdMap K V) (key : K)
    (value : V) : StdMap K V :=
  assign (subscript m key) key value

end StdMap

/-! ## `HttpRequest` -/

/-- The data members of `HttpRequest`. The backend handle (`m_curl`, or `m_attr` on the
web build), the mutex and the promise are carried as plain values: none of the operations
of the header reads or writes them. -/
structure HttpRequest where
  m_curl : Nat
  m_transmissionMutex : Bool
  m_method : CppString
  m_url : CppString
  m_body : CppString
  m_promise : Option (List Byte)
  m_headers : StdMap CppString CppString
  m_timeout : u32
  m_progress : f32
  m_canceled : Bool
  deriving DecidableEq

namespace HttpRequest

/-- Modelled from the spec: the constructor `HttpRequest(std::string method, std::string url)`
is only declared in the header and its definition is not part of the sources at hand.
Following the spec ("created with (method, url)", "timeout: whole milliseconds, default
1000", "After construction, getProgress(R) == 0 and isCanceled(R) == false") it stores the
two arguments and leaves every other member at its default member initialiser of the
header: `m_timeout = 1000`, `m_progress = 0.0F`, `m_canceled = false`, empty body and
headers, a promise without a value. The backend handle it acquires is the parameter
`handle`. -/
def construct (method url : CppString) (handle : Nat) : HttpRequest :=
  { m_curl := handle
    m_transmissionMutex := false
    m_method := method
    m_url := url
    m_body := []
    m_promise := none
    m_headers := []
    m_timeout := 1000
    m_progress := f32.zero
    m_canceled := false }

/-- `void setMethod(std::string method) { m_method = std::move(method); }`. -/
def setMethod (r : HttpRequest) (method : CppString) : HttpRequest :=
  { r with m_method := method }

/-- `void setUrl(std::string url) { m_url = std::move(url); }`. -/
def setUrl (r : HttpRequest) (url : CppString) : HttpRequest :=
  { r with m_url := url }

/-- `void addHeader(std::string key, std::string value)
{ m_headers[std::move(key)] = std::move(value); }`. -/
def addHeader (r : HttpRequest) (key value : CppString) : HttpRequest :=
  { r with m_headers := StdMap.subscriptAssign r.m_headers key value }

/-- `void setBody(std::string body) { m_body = std::move(body); }`. -/
def setBody (r : HttpRequest) (body : CppString) : HttpRequest :=
  { r with m_body := body }

/-- `void setTimeout(u32 timeout) { m_timeout = timeout; }`. -/
def setTimeout (r : HttpRequest) (timeout : u32) : HttpRequest :=
  { r with m_timeout := timeout }

/-- `float getProgress() const { return m_progress; }`. -/
def getProgress (r : HttpRequest) : f32 := r.m_progress

/-- `void cancel() { m_canceled = true; }`. -/
def cancel (r : HttpRequest) : HttpRequest :=
  { r with m_canceled := true }

/-- `void setProgress(float progress) { m_progress = progress; }`. -/
def setProgress (r : HttpRequest) (progress : f32) : HttpRequest :=
  { r with m_progress := progress }

/-- `bool isCanceled() const { return m_canceled; }`. -/
def isCanceled (r : HttpRequest) : Bool := r.m_canceled

/-- One call of a state-mutating operation of the header, with its arguments. -/
inductive Operation where
  | setMethod (method : CppString)
  | setUrl (url : CppString)
  | addHeader (key value : CppString)
  | setBody (body : CppString)
  | setTimeout (timeout : u32)
  | setProgress (progress : f32)
  | cancel

/-- The request after one call. -/
def Operation.apply (r : HttpRequest) : Operation → HttpRequest
  | Operation.setMethod method => r.setMethod method
  | Operation.setUrl url => r.setUrl url
  | Operation.addHeader key value => r.addHeader key value
  | Operation.setBody body => r.setBody body
  | Operation.setTimeout timeout => r.setTimeout timeout
  | Operation.setProgress progress => r.setProgress progress
  | Operation.cancel => r.cancel

/-- The request after a finite sequence of calls, first call first. -/
def run (r : HttpRequest) (ops : List Operation) : HttpRequest :=
  List.foldl Operation.apply r ops

/-- Every `setProgress` call of the sequence passes a number of `[0, 1]`. -/
def ProgressArgumentsInUnit : List Operation → Prop
  | [] => True
  | Operation.setProgress progress :: rest => progress.inUnit ∧ ProgressArgumentsInUnit rest
  | _ :: rest => ProgressArgumentsInUnit rest

end HttpRequest

/-! ## Percent codec

`urlEncode` and `urlDecode` are static members that the header declares without a body. -/

/-- Modelled from the spec: membership in the unreserved set `A-Z a-z 0-9 - _ . ~` of the
percent codec (the codec's definition is not part of the sources at hand). -/
def isUnreserved (b : Byte) : Bool :=
  (65 ≤ b.val && b.val ≤ 90) || (97 ≤ b.val && b.val ≤ 122) || (48 ≤ b.val && b.val ≤ 57)
    || b.val == 45 || b.val == 95 || b.val == 46 || b.val == 126

/-- Modelled from the spec: the upper-case hexadecimal digit of a value below 16, as the
codec writes it in `%HH` (the codec's definition is not part of the sources at hand). -/
def hexDigitUpper (n : Nat) : Byte :=
  if n < 10 then Fin.ofNat (48 + n) else Fin.ofNat (55 + n)

/-- Modelled from the spec: the value of a hexadecimal digit "of either case", and `none`
for any other byte (the codec's definition is not part of the sources at hand). -/
def hexValue (b : Byte) : Option Nat :=
  if 48 ≤ b.val ∧ b.val ≤ 57 then some (b.val - 48)
  else if 65 ≤ b.val ∧ b.val ≤ 70 then some (b.val - 55)
  else if 97 ≤ b.val ∧ b.val ≤ 102 then some (b.val - 87)
  else none

/-- Modelled from the spec: `HttpRequest::urlEncode`, whose definition is not part of the
sources at hand. "Every byte outside the unreserved set `A-Z a-z 0-9 - _ . ~` becomes `%HH`
(upper-case hex). Space does NOT become `+`." -/
def HttpRequest.urlEncode : CppString → CppString
  | [] => []
  | b :: rest =>
    if isUnreserved b then b :: HttpRequest.urlEncode rest
    else 37 :: hexDigitUpper (b.val / 16) :: hexDigitUpper (b.val % 16)
      :: HttpRequest.urlEncode rest

/-- Modelled from the spec: the byte denoted by the two hexadecimal digits that follow a
`%`, and `none` when the bytes that follow are not two hexadecimal digits, a "malformed
triple" (the codec's definition is not part of the sources at hand). -/
def hexPair : CppString → Option Byte
  | hi :: lo :: _ =>
    match hexValue hi, hexValue lo with
    | some x, some y => some (Fin.ofNat (16 * x + y))
    | _, _ => none
  | _ => none

/-- Modelled from the spec: the decoding loop of `HttpRequest::urlDecode`, whose definition
is not part of the sources at hand. `skip` counts the bytes still to step over, the two
digits of a `%HH` triple that has just been decoded. "`%HH` triples (either case) become
the corresponding byte; malformed triples are passed through literally." -/
def urlDecodeFrom : Nat → CppString → CppString
  | _, [] => []
  | skip + 1, _ :: rest => urlDecodeFrom skip rest
  | 0, b :: rest =>
    if b = 37 then
      match hexPair rest with
      | some decoded => decoded :: urlDecodeFrom 2 rest
      | none => b :: urlDecodeFrom 0 rest
    else b :: urlDecodeFrom 0 rest

/-- Modelled from the spec: `HttpRequest::urlDecode`, whose definition is not part of the
sources at hand: the decoding loop run over the whole input. -/
def HttpRequest.urlDecode (input : CppString) : CppString :=
  urlDecodeFrom 0 input

/-! ## Sample inputs -/

/-- A request as `HttpRequest("GET", "http://127.0.0.1/hello")` makes it. -/
def sampleRequest : HttpRequest :=
  HttpRequest.construct (ascii "GET") (ascii "http://127.0.0.1/hello") 1

/-- The sample request with the header `Accept: text/plain` added. -/
def sampleRequestWithHeader : HttpRequest :=
  sampleRequest.addHeader (ascii "Accept") (ascii "text/plain")

/-! ## Lemmas on `std::map` -/

theorem StdMap.subscriptAssign_nil {K V : Type} [LinearOrder K] [Inhabited V] (k : K) (v : V) :
    StdMap.subscriptAssign ([] : StdMap K V) k v = [(k, v)] := by
  simp [StdMap.subscriptAssign, StdMap.subscript, StdMap.assign]

theorem StdMap.subscriptAssign_cons {K V : Type} [LinearOrder K] [Inhabited V]
    (k' : K) (v' : V) (rest : StdMap K V) (k : K) (v : V) :
    StdMap.subscriptAssign ((k', v') :: rest) k v =
      if k < k' then (k, v) :: (k', v') :: rest
      else if k' < k then (k', v') :: StdMap.subscriptAssign rest k v
      else (k', v) :: rest := by
  unfold StdMap.subscriptAssign
  by_cases h1 : k < k'
  · simp [StdMap.subscript, StdMap.assign, h1]
  · by_cases h2 : k' < k
    · simp [StdMap.subscript, StdMap.assign, h1, h2, ne_of_lt h2]
    · have h3 : k' = k := le_antisymm (not_lt.mp h1) (not_lt.mp h2)
      simp [StdMap.subscript, StdMap.assign, h1, h3]

theorem StdMap.find_subscriptAssign_self {K V : Type} [LinearOrder K] [Inhabited V]
    (m : StdMap K V) (k : K) (v : V) :
    StdMap.find (StdMap.subscriptAssign m k v) k = some v := by
  induction m with
  | nil => simp [StdMap.subscriptAssign_nil, StdMap.find]
  | cons e rest ih =>
    obtain ⟨k', v'⟩ := e
    rw [StdMap.subscriptAssign_cons]
    by_cases h1 : k < k'
    · simp [h1, StdMap.find]
    · by_cases h2 : k' < k
      · simp [h1, h2, StdMap.find, ne_of_lt h2, ih]
      · have h3 : k' = k := le_antisymm (not_lt.mp h1) (not_lt.mp h2)
        simp [h1, h3, StdMap.find]

theorem StdMap.find_subscriptAssign_other {K V : Type} [LinearOrder K] [Inhabited V]
    (m : StdMap K V) (k : K) (v : V) (k₀ : K) (hne : k₀ ≠ k) :
    StdMap.find (StdMap.subscriptAssign m k v) k₀ = StdMap.find m k₀ := by
  induction m with
  | nil => simp [StdMap.subscriptAssign_nil, StdMap.find, Ne.symm hne]
  | cons e rest ih =>
    obtain ⟨k', v'⟩ := e
    rw [StdMap.subscriptAssign_cons]
    by_cases h1 : k < k'
    · simp [h1, StdMap.find, Ne.symm hne]
    · by_cases h2 : k' < k
      · simp [h1, h2, StdMap.find, ih]
      · have h3 : k' = k := le_antisymm (not_lt.mp h1) (not_lt.mp h2)
        simp [h1, h3, StdMap.find, Ne.symm hne]

theorem StdMap.size_subscriptAssign_absent {K V : Type} [LinearOrder K] [Inhabited V]
    (m : StdMap K V) (k : K) (v : V) (habs : StdMap.find m k = none) :
    StdMap.size (StdMap.subscriptAssign m k v) = StdMap.size m + 1 := by
  induction m with
  | nil => simp [StdMap.subscriptAssign_nil, StdMap.size]
  | cons e rest ih =>
    obtain ⟨k', v'⟩ := e
    rw [StdMap.subscriptAssign_cons]
    by_cases h3 : k' = k
    · simp [StdMap.find, h3] at habs
    · have hrest : StdMap.find rest k = none := by simpa [StdMap.find, h3] using habs
      by_cases h1 : k < k'
      · simp [h1, StdMap.size]
      · by_cases h2 : k' < k
        · have := ih hrest
          simp [StdMap.size] at this
          simp [h1, h2, StdMap.size, this]
        · exact absurd (le_antisymm (not_lt.mp h1) (not_lt.mp h2)) h3

theorem StdMap.find_none_of_lt {K V : Type} [LinearOrder K] (m : StdMap K V) (k : K)
    (hlt : ∀ e ∈ m, k < e.1) : StdMap.find m k = none := by
  induction m with
  | nil => rfl
  | cons e rest ih =>
    obtain ⟨k', v'⟩ := e
    have hk : k < k' := hlt (k', v') (List.mem_cons_self _ _)
    have hr : StdMap.find rest k = none := ih (fun e he => hlt e (List.mem_cons_of_mem _ he))
    simp [StdMap.find, ne_of_gt hk, hr]

theorem StdMap.size_subscriptAssign_present {K V : Type} [LinearOrder K] [Inhabited V]
    (m : StdMap K V) (k : K) (v : V) (hasc : StdMap.KeysAscending m)
    (hpres : StdMap.find m k ≠ none) :
    StdMap.size (StdMap.subscriptAssign m k v) = StdMap.size m := by
  induction m with
  | nil => exact absurd rfl hpres
  | cons e rest ih =>
    obtain ⟨k', v'⟩ := e
    rw [StdMap.subscriptAssign_cons]
    have hasc' := List.pairwise_cons.mp hasc
    by_cases h1 : k < k'
    · exfalso
      apply hpres
      apply StdMap.find_none_of_lt
      intro e he
      rcases List.mem_cons.mp he with rfl | he
      · exact h1
      · exact lt_trans h1 (hasc'.1 e he)
    · by_cases h2 : k' < k
      · have hrest : StdMap.find rest k ≠ none := by
          simpa [StdMap.find, ne_of_lt h2] using hpres
        have := ih hasc'.2 hrest
        simp [StdMap.size] at this
        simp [h1, h2, StdMap.size, this]
      · simp [h1, h2, StdMap.size]

theorem StdMap.mem_subscriptAssign {K V : Type} [LinearOrder K] [Inhabited V]
    (m : StdMap K V) (k : K) (v : V) (e : K × V)
    (he : e ∈ StdMap.subscriptAssign m k v) : e.1 = k ∨ e ∈ m := by
  induction m with
  | nil =>
    rw [StdMap.subscriptAssign_nil] at he
    left
    simp at he
    simp [he]
  | cons e' rest ih =>
    obtain ⟨k', v'⟩ := e'
    rw [StdMap.subscriptAssign_cons] at he
    by_cases h1 : k < k'
    · simp only [h1, if_true] at he
      rcases List.mem_cons.mp he with rfl | he
      · left; rfl
      · right; exact he
    · by_cases h2 : k' < k
      · simp only [h1, h2, if_true, if_false] at he
        rcases List.mem_cons.mp he with rfl | he
        · right; exact List.mem_cons_self _ _
        · rcases ih he with h | h
          · left; exact h
          · right; exact List.mem_cons_of_mem _ h
      · have h3 : k' = k := le_antisymm (not_lt.mp h1) (not_lt.mp h2)
        simp only [h1, h2, if_false] at he
        rcases List.mem_cons.mp he with rfl | he
        · left; exact h3
        · right; exact List.mem_cons_of_mem _ he

theorem StdMap.keysAscending_subscriptAssign {K V : Type} [LinearOrder K] [Inhabited V]
    (m : StdMap K V) (k : K) (v : V) (hasc : StdMap.KeysAscending m) :
    StdMap.KeysAscending (StdMap.subscriptAssign m k v) := by
  induction m with
  | nil =>
    rw [StdMap.subscriptAssign_nil]
    exact List.pairwise_singleton _ _
  | cons e' rest ih =>
    obtain ⟨k', v'⟩ := e'
    rw [StdMap.subscriptAssign_cons]
    have hasc' := List.pairwise_cons.mp hasc
    by_cases h1 : k < k'
    · simp only [h1, if_true]
      refine List.pairwise_cons.mpr ⟨?_, hasc⟩
      intro e he
      rcases List.mem_cons.mp he with rfl | he
      · exact h1
      · exact lt_trans h1 (hasc'.1 e he)
    · by_cases h2 : k' < k
      · simp only [h1, h2, if_true, if_false]
        refine List.pairwise_cons.mpr ⟨?_, ih hasc'.2⟩
        intro e he
        rcases StdMap.mem_subscriptAssign rest k v e he with h | h
        · rw [h]; exact h2
        · exact hasc'.1 e h
      · simp only [h1, h2, if_false]
        exact List.pairwise_cons.mpr ⟨hasc'.1, hasc'.2⟩

/-! ## Lemmas on the request operations -/

theorem HttpRequest.isCanceled_apply (r : HttpRequest) (op : HttpRequest.Operation)
    (h : r.isCanceled = true) : (HttpRequest.Operation.apply r op).isCanceled = true := by
  cases op <;> first | exact h | rfl

theorem HttpRequest.isCanceled_run (ops : List HttpRequest.Operation) (r : HttpRequest)
    (h : r.isCanceled = true) : (r.run ops).isCanceled = true := by
  induction ops generalizing r with
  | nil => exact h
  | cons op rest ih => exact ih _ (HttpRequest.isCanceled_apply r op h)

theorem HttpRequest.inUnit_run (ops : List HttpRequest.Operation) (r : HttpRequest)
    (h : r.getProgress.inUnit) (hops : HttpRequest.ProgressArgumentsInUnit ops) :
    (r.run ops).getProgress.inUnit := by
  induction ops generalizing r with
  | nil => exact h
  | cons op rest ih =>
    cases op with
    | setProgress progress => exact ih _ hops.1 hops.2
    | setMethod method => exact ih _ h hops
    | setUrl url => exact ih _ h hops
    | addHeader key value => exact ih _ h hops
    | setBody body => exact ih _ h hops
    | setTimeout timeout => exact ih _ h hops
    | cancel => exact ih _ h hops

/-! ## Lemmas on the percent codec -/

set_option maxRecDepth 100000 in
theorem unreserved_ne_percent : ∀ b : Byte, isUnreserved b = true → b ≠ 37 := by
  decide

set_option maxRecDepth 100000 in
theorem hexPair_hexDigits (b : Byte) (tail : CppString) :
    hexPair (hexDigitUpper (b.val / 16) :: hexDigitUpper (b.val % 16) :: tail) = some b := by
  have key : ∀ c : Byte, hexValue (hexDigitUpper (c.val / 16)) = some (c.val / 16)
      ∧ hexValue (hexDigitUpper (c.val % 16)) = some (c.val % 16)
      ∧ (Fin.ofNat (16 * (c.val / 16) + c.val % 16) : Byte) = c := by
    decide
  obtain ⟨h1, h2, h3⟩ := key b
  simp only [hexPair, h1, h2, h3]

theorem urlDecodeFrom_urlEncode (s : CppString) :
    urlDecodeFrom 0 (HttpRequest.urlEncode s) = s := by
  induction s with
  | nil => rfl
  | cons b rest ih =>
    by_cases hb : isUnreserved b = true
    · have hne := unreserved_ne_percent b hb
      simp only [HttpRequest.urlEncode, hb, if_true, urlDecodeFrom, hne, if_false, ih]
    · simp only [HttpRequest.urlEncode, hb, if_false, urlDecodeFrom, if_true,
        hexPair_hexDigits, ih]

/-! ## The result wrapper -/

/-- C1: for every result `r`, of any body type and valid or not, `r.isSuccess()` holds
exactly when `r.getStatusCode() == 200`; in particular a result built with a status `s`
with `201 <= s <= 299` is not a success. -/
theorem isSuccess_iff_status_200 {T : Type} (r : Result T) (s : u32) (d : T) :
    (r.isSuccess = true ↔ r.getStatusCode = 200)
    ∧ (201 ≤ s.val → s.val ≤ 299 → (Result.make s d).isSuccess = false) := by
  refine ⟨?_, ?_⟩
  · simp [Result.isSuccess, Result.getStatusCode, ResultBase.isSuccess]
  · intro hlo _
    have hne : s ≠ 200 := by
      intro h
      rw [h] at hlo
      exact absurd hlo (by decide)
    simp [Result.isSuccess, Result.make, ResultBase.isSuccess, ResultBase.getStatusCode,
      ResultBase.ofStatus, hne]

/-- Witness of C1: an invalid result carrying status 200 still counts as a success, and
`Result(204, "")` is not one. -/
theorem isSuccess_iff_status_200_witness :
    (((⟨⟨200, false⟩, ascii "x"⟩ : Result CppString).isSuccess = true
        ↔ (⟨⟨200, false⟩, ascii "x"⟩ : Result CppString).getStatusCode = 200)
      ∧ (Result.make 204 (ascii "")).isSuccess = false) :=
  ⟨(isSuccess_iff_status_200 (⟨⟨200, false⟩, ascii "x"⟩ : Result CppString) 204 (ascii "")).1,
    (isSuccess_iff_status_200 (⟨⟨200, false⟩, ascii "x"⟩ : Result CppString) 204 (ascii "")).2
      (by decide) (by decide)⟩

/-- C2: the default-constructed `Result<T>`, the failure result, has `isValid() == false`,
`getStatusCode() == 0` and `isSuccess() == false`, for every body type `T`. -/
theorem default_result_is_failure (T : Type) [Inhabited T] :
    (Result.default T).isValid = false
    ∧ (Result.default T).getStatusCode = 0
    ∧ (Result.default T).isSuccess = false := by
  refine ⟨rfl, rfl, ?_⟩
  simp [Result.isSuccess, Result.default, ResultBase.isSuccess, ResultBase.getStatusCode,
    ResultBase.default]

/-- C3: for every status `s` and body `d`, `Result(s, d)` has `isValid() == true`,
`getStatusCode() == s` and `getData() == d`. -/
theorem make_result_valid_status_data {T : Type} (s : u32) (d : T) :
    (Result.make s d).isValid = true
    ∧ (Result.make s d).getStatusCode = s
    ∧ (Result.make s d).getData = d :=
  ⟨rfl, rfl, rfl⟩

/-- C10: for every result obtained through a constructor of the class, `isSuccess()`
implies `isValid()`, and `isValid() == false` implies `getStatusCode() == 0`; the converse
of the latter fails, since `Result(0, d)` is valid with status 0. -/
theorem constructed_success_implies_valid {T : Type} [Inhabited T] (r : Result T)
    (hr : Result.Constructed r) (d : T) :
    (r.isSuccess = true → r.isValid = true)
    ∧ (r.isValid = false → r.getStatusCode = 0)
    ∧ (Result.Constructed (Result.make 0 d) ∧ (Result.make 0 d).getStatusCode = 0
        ∧ (Result.make 0 d).isValid = true) := by
  refine ⟨?_, ?_, Result.Constructed.byMake 0 d, rfl, rfl⟩
  · intro hs
    cases hr with
    | byDefault =>
      simp [Result.isSuccess, Result.default, ResultBase.isSuccess, ResultBase.getStatusCode,
        ResultBase.default] at hs
    | byMake s d' => rfl
  · intro hv
    cases hr with
    | byDefault => rfl
    | byMake s d' =>
      simp [Result.isValid, Result.make, ResultBase.isValid, ResultBase.ofStatus] at hv

/-- Witness of C10 at `Result(200, "hello")`. -/
theorem constructed_success_implies_valid_witness :
    Result.Constructed (Result.make 200 (ascii "hello"))
    ∧ ((Result.make 200 (ascii "hello")).isSuccess = true
        → (Result.make 200 (ascii "hello")).isValid = true)
    ∧ ((Result.make 200 (ascii "hello")).isValid = false
        → (Result.make 200 (ascii "hello")).getStatusCode = 0)
    ∧ (Result.Constructed (Result.make 0 (ascii "nope"))
        ∧ (Result.make 0 (ascii "nope")).getStatusCode = 0
        ∧ (Result.make 0 (ascii "nope")).isValid = true) :=
  ⟨Result.Constructed.byMake 200 (ascii "hello"),
    constructed_success_implies_valid (Result.make 200 (ascii "hello"))
      (Result.Constructed.byMake 200 (ascii "hello")) (ascii "nope")⟩

/-! ## The request -/

/-- C4: a request freshly constructed from any `(method, url)` has `getProgress() == 0`
and `isCanceled() == false`. -/
theorem construct_progress_zero_not_canceled (method url : CppString) (handle : Nat) :
    (HttpRequest.construct method url handle).getProgress = f32.num 0
    ∧ (HttpRequest.construct method url handle).isCanceled = false :=
  ⟨rfl, rfl⟩

/-- C5: `cancel()` always leaves `isCanceled() == true`, and once `isCanceled()` is true it
is still true after any finite sequence of `setMethod`, `setUrl`, `addHeader`, `setBody`,
`setTimeout`, `setProgress` and `cancel` calls; no single one of them resets the flag. -/
theorem cancel_flag_monotone (r : HttpRequest) (ops : List HttpRequest.Operation)
    (op : HttpRequest.Operation) :
    r.cancel.isCanceled = true
    ∧ (r.isCanceled = true → (r.run ops).isCanceled = true)
    ∧ (r.isCanceled = true → (HttpRequest.Operation.apply r op).isCanceled = true)
    ∧ (r.cancel.run ops).isCanceled = true :=
  ⟨rfl, HttpRequest.isCanceled_run ops r, HttpRequest.isCanceled_apply r op,
    HttpRequest.isCanceled_run ops r.cancel rfl⟩

/-- Witness of C5: a cancelled request stays cancelled through one call of each setter. -/
theorem cancel_flag_monotone_witness :
    sampleRequest.cancel.isCanceled = true
    ∧ (sampleRequest.cancel.run
        [HttpRequest.Operation.setMethod (ascii "POST"),
          HttpRequest.Operation.setUrl (ascii "http://127.0.0.1/x"),
          HttpRequest.Operation.addHeader (ascii "Accept") (ascii "*/*"),
          HttpRequest.Operation.setBody (ascii "body"),
          HttpRequest.Operation.setTimeout 50,
          HttpRequest.Operation.setProgress (f32.num 0),
          HttpRequest.Operation.cancel]).isCanceled = true
    ∧ (HttpRequest.Operation.apply sampleRequest.cancel
        (HttpRequest.Operation.setProgress (f32.num 0))).isCanceled = true :=
  ⟨by decide,
    (cancel_flag_monotone sampleRequest.cancel
      [HttpRequest.Operation.setMethod (ascii "POST"),
        HttpRequest.Operation.setUrl (ascii "http://127.0.0.1/x"),
        HttpRequest.Operation.addHeader (ascii "Accept") (ascii "*/*"),
        HttpRequest.Operation.setBody (ascii "body"),
        HttpRequest.Operation.setTimeout 50,
        HttpRequest.Operation.setProgress (f32.num 0),
        HttpRequest.Operation.cancel]
      (HttpRequest.Operation.setProgress (f32.num 0))).2.1 (by decide),
    (cancel_flag_monotone sampleRequest.cancel []
      (HttpRequest.Operation.setProgress (f32.num 0))).2.2.1 (by decide)⟩

/-- Counterexample to C6 as stated: on a freshly constructed request, `setProgress(2.0F)`
is stored as it is, so `getProgress()` returns 2, which is not in `[0, 1]`. -/
theorem progress_exceeds_one_after_setProgress :
    (sampleRequest.run [HttpRequest.Operation.setProgress (f32.num 2)]).getProgress = f32.num 2
    ∧ ¬ (sampleRequest.run
        [HttpRequest.Operation.setProgress (f32.num 2)]).getProgress.inUnit := by
  refine ⟨rfl, ?_⟩
  decide

/-- C6, amended: `setProgress(p)` stores `p` as it is, whatever `p` is; hence in every
state reached from a freshly constructed request (or from any request whose progress lies
in `[0, 1]`) by a finite sequence of public operations whose `setProgress` arguments all
lie in `[0, 1]`, `getProgress()` lies in `[0, 1]`. -/
theorem progress_in_unit_of_arguments_in_unit (r : HttpRequest)
    (ops : List HttpRequest.Operation) (p : f32) (method url : CppString) (handle : Nat)
    (hops : HttpRequest.ProgressArgumentsInUnit ops) :
    ((HttpRequest.construct method url handle).run ops).getProgress.inUnit
    ∧ (r.getProgress.inUnit → (r.run ops).getProgress.inUnit)
    ∧ ((r.run ops).setProgress p).getProgress = p := by
  refine ⟨?_, fun hr => HttpRequest.inUnit_run ops r hr hops, rfl⟩
  apply HttpRequest.inUnit_run ops _ _ hops
  simp [HttpRequest.construct, HttpRequest.getProgress, f32.zero, f32.inUnit]

/-- Witness of C6, amended: a fresh request, then `setProgress(0.5F)`, `cancel()`,
`setProgress(1.0F)`. -/
theorem progress_in_unit_of_arguments_in_unit_witness :
    HttpRequest.ProgressArgumentsInUnit
        [HttpRequest.Operation.setProgress (f32.num (1 / 2)), HttpRequest.Operation.cancel,
          HttpRequest.Operation.setProgress (f32.num 1)]
    ∧ ((HttpRequest.construct (ascii "GET") (ascii "http://127.0.0.1/hello") 1).run
        [HttpRequest.Operation.setProgress (f32.num (1 / 2)), HttpRequest.Operation.cancel,
          HttpRequest.Operation.setProgress (f32.num 1)]).getProgress.inUnit
    ∧ ((sampleRequest.run
        [HttpRequest.Operation.setProgress (f32.num (1 / 2)), HttpRequest.Operation.cancel,
          HttpRequest.Operation.setProgress (f32.num 1)]).setProgress
            (f32.inf false)).getProgress = f32.inf false :=
  have h1 : HttpRequest.ProgressArgumentsInUnit
      [HttpRequest.Operation.setProgress (f32.num (1 / 2)), HttpRequest.Operation.cancel,
        HttpRequest.Operation.setProgress (f32.num 1)] := by
    simp only [HttpRequest.ProgressArgumentsInUnit, f32.inUnit]
    norm_num
  have h := progress_in_unit_of_arguments_in_unit sampleRequest _ (f32.inf false)
    (ascii "GET") (ascii "http://127.0.0.1/hello") 1 h1
  ⟨h1, h.1, h.2.2⟩

/-- C7: `addHeader(k, v)` is insert-or-overwrite on a map with unique keys: afterwards `k`
maps to `v`; every other key maps to what it mapped to before; the number of entries grows
by one if `k` was absent and is unchanged if `k` was present; the keys stay unique; and a
second `addHeader` with the same key keeps only the last value, in one entry. -/
theorem addHeader_insert_or_overwrite (r : HttpRequest) (k v w : CppString)
    (hasc : StdMap.KeysAscending r.m_headers) :
    StdMap.find (r.addHeader k v).m_headers k = some v
    ∧ (∀ k₀ : CppString, k₀ ≠ k →
        StdMap.find (r.addHeader k v).m_headers k₀ = StdMap.find r.m_headers k₀)
    ∧ (StdMap.find r.m_headers k = none →
        StdMap.size (r.addHeader k v).m_headers = StdMap.size r.m_headers + 1)
    ∧ (StdMap.find r.m_headers k ≠ none →
        StdMap.size (r.addHeader k v).m_headers = StdMap.size r.m_headers)
    ∧ StdMap.KeysAscending (r.addHeader k v).m_headers
    ∧ StdMap.find ((r.addHeader k v).addHeader k w).m_headers k = some w
    ∧ StdMap.size ((r.addHeader k v).addHeader k w).m_headers
        = StdMap.size (r.addHeader k v).m_headers := by
  have hself := StdMap.find_subscriptAssign_self r.m_headers k v
  have hasc' := StdMap.keysAscending_subscriptAssign r.m_headers k v hasc
  refine ⟨hself, ?_, ?_, ?_, hasc', ?_, ?_⟩
  · intro k₀ hne
    exact StdMap.find_subscriptAssign_other r.m_headers k v k₀ hne
  · intro habs
    exact StdMap.size_subscriptAssign_absent r.m_headers k v habs
  · intro hpres
    exact StdMap.size_subscriptAssign_present r.m_headers k v hasc hpres
  · exact StdMap.find_subscriptAssign_self _ k w
  · apply StdMap.size_subscriptAssign_present _ k w hasc'
    intro hnone
    have hsome : StdMap.find (StdMap.subscriptAssign r.m_headers k v) k = some v := hself
    rw [hnone] at hsome
    exact Option.noConfusion hsome

/-- Witness of C7: on a request holding `Accept: text/plain`, adding `Accept: */*`
overwrites the value in place and adding `Range` would be a new entry. -/
theorem addHeader_insert_or_overwrite_witness :
    StdMap.KeysAscending sampleRequestWithHeader.m_headers
    ∧ StdMap.find (sampleRequestWithHeader.addHeader (ascii "Accept") (ascii "*/*")).m_headers
        (ascii "Accept") = some (ascii "*/*")
    ∧ StdMap.size (sampleRequestWithHeader.addHeader (ascii "Accept") (ascii "*/*")).m_headers
        = StdMap.size sampleRequestWithHeader.m_headers
    ∧ StdMap.size sampleRequestWithHeader.m_headers = 1 :=
  have hasc : StdMap.KeysAscending sampleRequestWithHeader.m_headers :=
    List.pairwise_singleton _ _
  have h := addHeader_insert_or_overwrite sampleRequestWithHeader (ascii "Accept")
    (ascii "*/*") (ascii "text/html") hasc
  ⟨hasc, h.1, h.2.2.2.1 (by decide), by decide⟩

/-- C8: each of `setMethod`, `setUrl`, `setBody`, `setTimeout` and `addHeader` sets its own
member to the argument (for `addHeader`, the one map entry) and leaves every other member
unchanged; `cancel()` changes only the cancel flag and `setProgress(p)` only the progress
cell. -/
theorem setters_change_only_their_member (r : HttpRequest) (method url body key value : CppString)
    (timeout : u32) (p : f32) :
    ((r.setMethod method).m_method = method
      ∧ (r.setMethod method).m_url = r.m_url
      ∧ (r.setMethod method).m_body = r.m_body
      ∧ (r.setMethod method).m_headers = r.m_headers
      ∧ (r.setMethod method).m_timeout = r.m_timeout
      ∧ (r.setMethod method).m_progress = r.m_progress
      ∧ (r.setMethod method).m_canceled = r.m_canceled
      ∧ (r.setMethod method).m_curl = r.m_curl
      ∧ (r.setMethod method).m_transmissionMutex = r.m_transmissionMutex
      ∧ (r.setMethod method).m_promise = r.m_promise)
    ∧ ((r.setUrl url).m_url = url
      ∧ (r.setUrl url).m_method = r.m_method
      ∧ (r.setUrl url).m_body = r.m_body
      ∧ (r.setUrl url).m_headers = r.m_headers
      ∧ (r.setUrl url).m_timeout = r.m_timeout
      ∧ (r.setUrl url).m_progress = r.m_progress
      ∧ (r.setUrl url).m_canceled = r.m_canceled
      ∧ (r.setUrl url).m_curl = r.m_curl
      ∧ (r.setUrl url).m_transmissionMutex = r.m_transmissionMutex
      ∧ (r.setUrl url).m_promise = r.m_promise)
    ∧ ((r.setBody body).m_body = body
      ∧ (r.setBody body).m_method = r.m_method
      ∧ (r.setBody body).m_url = r.m_url
      ∧ (r.setBody body).m_headers = r.m_headers
      ∧ (r.setBody body).m_timeout = r.m_timeout
      ∧ (r.setBody body).m_progress = r.m_progress
      ∧ (r.setBody body).m_canceled = r.m_canceled
      ∧ (r.setBody body).m_curl = r.m_curl
      ∧ (r.setBody body).m_transmissionMutex = r.m_transmissionMutex
      ∧ (r.setBody body).m_promise = r.m_promise)
    ∧ ((r.setTimeout timeout).m_timeout = timeout
      ∧ (r.setTimeout timeout).m_method = r.m_method
      ∧ (r.setTimeout timeout).m_url = r.m_url
      ∧ (r.setTimeout timeout).m_body = r.m_body
      ∧ (r.setTimeout timeout).m_headers = r.m_headers
      ∧ (r.setTimeout timeout).m_progress = r.m_progress
      ∧ (r.setTimeout timeout).m_canceled = r.m_canceled
      ∧ (r.setTimeout timeout).m_curl = r.m_curl
      ∧ (r.setTimeout timeout).m_transmissionMutex = r.m_transmissionMutex
      ∧ (r.setTimeout timeout).m_promise = r.m_promise)
    ∧ (StdMap.find (r.addHeader key value).m_headers key = some value
      ∧ (∀ k₀ : CppString, k₀ ≠ key →
          StdMap.find (r.addHeader key value).m_headers k₀ = StdMap.find r.m_headers k₀)
      ∧ (r.addHeader key value).m_method = r.m_method
      ∧ (r.addHeader key value).m_url = r.m_url
      ∧ (r.addHeader key value).m_body = r.m_body
      ∧ (r.addHeader key value).m_timeout = r.m_timeout
      ∧ (r.addHeader key value).m_progress = r.m_progress
      ∧ (r.addHeader key value).m_canceled = r.m_canceled
      ∧ (r.addHeader key value).m_curl = r.m_curl
      ∧ (r.addHeader key value).m_transmissionMutex = r.m_transmissionMutex
      ∧ (r.addHeader key value).m_promise = r.m_promise)
    ∧ (r.cancel.m_canceled = true
      ∧ r.cancel.m_method = r.m_method
      ∧ r.cancel.m_url = r.m_url
      ∧ r.cancel.m_body = r.m_body
      ∧ r.cancel.m_headers = r.m_headers
      ∧ r.cancel.m_timeout = r.m_timeout
      ∧ r.cancel.m_progress = r.m_progress
      ∧ r.cancel.m_curl = r.m_curl
      ∧ r.cancel.m_transmissionMutex = r.m_transmissionMutex
      ∧ r.cancel.m_promise = r.m_promise)
    ∧ ((r.setProgress p).m_progress = p
      ∧ (r.setProgress p).m_method = r.m_method
      ∧ (r.setProgress p).m_url = r.m_url
      ∧ (r.setProgress p).m_body = r.m_body
      ∧ (r.setProgress p).m_headers = r.m_headers
      ∧ (r.setProgress p).m_timeout = r.m_timeout
      ∧ (r.setProgress p).m_canceled = r.m_canceled
      ∧ (r.setProgress p).m_curl = r.m_curl
      ∧ (r.setProgress p).m_transmissionMutex = r.m_transmissionMutex
      ∧ (r.setProgress p).m_promise = r.m_promise) := by
  refine ⟨⟨rfl, rfl, rfl, rfl, rfl, rfl, rfl, rfl, rfl, rfl⟩,
    ⟨rfl, rfl, rfl, rfl, rfl, rfl, rfl, rfl, rfl, rfl⟩,
    ⟨rfl, rfl, rfl, rfl, rfl, rfl, rfl, rfl, rfl, rfl⟩,
    ⟨rfl, rfl, rfl, rfl, rfl, rfl, rfl, rfl, rfl, rfl⟩,
    ⟨StdMap.find_subscriptAssign_self r.m_headers key value, ?_,
      rfl, rfl, rfl, rfl, rfl, rfl, rfl, rfl, rfl⟩,
    ⟨rfl, rfl, rfl, rfl, rfl, rfl, rfl, rfl, rfl, rfl⟩,
    ⟨rfl, rfl, rfl, rfl, rfl, rfl, rfl, rfl, rfl, rfl⟩⟩
  intro k₀ hne
  exact StdMap.find_subscriptAssign_other r.m_headers key value k₀ hne

/-- Witness of C8: adding `Range` to the request that holds `Accept: text/plain` leaves
the `Accept` header as it was. -/
theorem setters_change_only_their_member_witness :
    ascii "Accept" ≠ ascii "Range"
    ∧ StdMap.find (sampleRequestWithHeader.addHeader (ascii "Range") (ascii "bytes=0-9")).m_headers
        (ascii "Accept") = StdMap.find sampleRequestWithHeader.m_headers (ascii "Accept")
    ∧ StdMap.find sampleRequestWithHeader.m_headers (ascii "Accept")
        = some (ascii "text/plain") :=
  ⟨by decide,
    (setters_change_only_their_member sampleRequestWithHeader (ascii "PUT") (ascii "u")
      (ascii "b") (ascii "Range") (ascii "bytes=0-9") 50 (f32.num 1)).2.2.2.2.1.2.1
      (ascii "Accept") (by decide),
    by decide⟩

/-! ## The percent codec -/

/-- C9: `urlDecode(urlEncode(s)) == s` for every byte string `s`; and
`urlEncode("a b/c?=d&e")` is `"a%20b%2Fc%3F%3Dd%26e"`, which decodes back. -/
theorem urlDecode_urlEncode (s : CppString) :
    HttpRequest.urlDecode (HttpRequest.urlEncode s) = s
    ∧ HttpRequest.urlEncode (ascii "a b/c?=d&e") = ascii "a%20b%2Fc%3F%3Dd%26e"
    ∧ HttpRequest.urlDecode (ascii "a%20b%2Fc%3F%3Dd%26e") = ascii "a b/c?=d&e" := by
  refine ⟨urlDecodeFrom_urlEncode s, ?_, ?_⟩
  · decide
  · decide

end hex
